import Mathlib

/-!
Verification model of the forwarding gateway in
`src/lawyer-console/src/app/api/backend/[...path]/route.ts` (the current
revision of the handler, the one defining `fetchWithTimeout`).

The TypeScript handler is translated into executable Lean definitions:
  * strings that the runtime treats as byte buffers (`ArrayBuffer`) are
    `List Nat` (byte values);
  * the Web `Headers` object is a `List (String × String)` whose keys are
    stored lowercase, as the Web API normalises them;
  * `fetch` is an oracle: the outcome of each network attempt is an input
    of the model (`FetchOutcome`), and a thrown JS exception is a value of
    `JsException`;
  * `JSON.parse` is a parameter of the handler model (`String → Option Json`);
    a small concrete JSON reader `jsonParseFn` instantiates it on the
    concrete inputs used below.
-/

namespace Gateway

/-- JS `String.prototype.includes`: substring occurrence test. -/
def listOccurs (l sub : List Char) : Bool :=
  match l with
  | [] => sub.isEmpty
  | _ :: t => sub.isPrefixOf l || listOccurs t sub

def jsIncludes (s sub : String) : Bool :=
  listOccurs s.data sub.data

/-- JS `String.prototype.startsWith`. -/
def jsStartsWith (s pre : String) : Bool :=
  pre.data.isPrefixOf s.data

/-- Whitespace recognised by JS `String.prototype.trim` (ASCII subset). -/
def jsIsWs (c : Char) : Bool :=
  c == ' ' || c == '\t' || c == '\n' || c == '\r' || c == Char.ofNat 12 || c == Char.ofNat 11

/-- JS `String.prototype.trim`. -/
def jsTrim (s : String) : String :=
  ⟨((s.data.dropWhile jsIsWs).reverse.dropWhile jsIsWs).reverse⟩

/-- JS `toLowerCase` / `toUpperCase` (ASCII), written over the character
list so that they compute inside the kernel. -/
def lcStr (s : String) : String := ⟨s.data.map Char.toLower⟩

def ucStr (s : String) : String := ⟨s.data.map Char.toUpper⟩

/-- Membership test on a list of strings (models `Set.has` / `Array.includes`). -/
def strMem : List String → String → Bool
  | [], _ => false
  | s :: rest, x => (s == x) || strMem rest x

/-- UTF-8 encoding of one unicode scalar value. -/
def utf8EncodeChar (c : Char) : List Nat :=
  let n := c.toNat
  if n < 128 then [n]
  else if n < 2048 then [192 + n / 64, 128 + n % 64]
  else if n < 65536 then [224 + n / 4096, 128 + (n / 64) % 64, 128 + n % 64]
  else [240 + n / 262144, 128 + (n / 4096) % 64, 128 + (n / 64) % 64, 128 + n % 64]

def utf8Encode (s : String) : List Nat :=
  s.data.flatMap utf8EncodeChar

/-- Continuation byte test for UTF-8 decoding. -/
def utf8Cont (b : Nat) : Bool :=
  decide (128 ≤ b ∧ b ≤ 191)

/-- The replacement character U+FFFD emitted by `TextDecoder` on bad input. -/
def replChar : Char := Char.ofNat 65533

/-- Fueled UTF-8 decoder modelling `new TextDecoder().decode`. -/
def utf8DecodeGo : Nat → List Nat → List Char
  | 0, _ => []
  | _ + 1, [] => []
  | fuel + 1, b :: rest =>
    if b < 128 then Char.ofNat b :: utf8DecodeGo fuel rest
    else if 194 ≤ b ∧ b ≤ 223 then
      match rest with
      | c1 :: r2 =>
        if utf8Cont c1 then
          Char.ofNat ((b - 192) * 64 + (c1 - 128)) :: utf8DecodeGo fuel r2
        else replChar :: utf8DecodeGo fuel rest
      | [] => [replChar]
    else if 224 ≤ b ∧ b ≤ 239 then
      match rest with
      | c1 :: c2 :: r3 =>
        if utf8Cont c1 && utf8Cont c2 then
          let n := (b - 224) * 4096 + (c1 - 128) * 64 + (c2 - 128)
          if 2048 ≤ n ∧ ¬ (55296 ≤ n ∧ n ≤ 57343) then
            Char.ofNat n :: utf8DecodeGo fuel r3
          else replChar :: utf8DecodeGo fuel rest
        else replChar :: utf8DecodeGo fuel rest
      | _ => replChar :: utf8DecodeGo fuel rest
    else if 240 ≤ b ∧ b ≤ 244 then
      match rest with
      | c1 :: c2 :: c3 :: r4 =>
        if utf8Cont c1 && utf8Cont c2 && utf8Cont c3 then
          let n := (b - 240) * 262144 + (c1 - 128) * 4096 + (c2 - 128) * 64 + (c3 - 128)
          if 65536 ≤ n ∧ n ≤ 1114111 then
            Char.ofNat n :: utf8DecodeGo fuel r4
          else replChar :: utf8DecodeGo fuel rest
        else replChar :: utf8DecodeGo fuel rest
      | _ => replChar :: utf8DecodeGo fuel rest
    else replChar :: utf8DecodeGo fuel rest

def utf8Decode (bs : List Nat) : String :=
  ⟨utf8DecodeGo bs.length bs⟩

/-- Value of one hex digit, if any. -/
def hexVal (c : Char) : Option Nat :=
  if '0' ≤ c ∧ c ≤ '9' then some (c.toNat - 48)
  else if 'a' ≤ c ∧ c ≤ 'f' then some (c.toNat - 87)
  else if 'A' ≤ c ∧ c ≤ 'F' then some (c.toNat - 55)
  else none

def hexDigitChar (n : Nat) : Char :=
  if n < 10 then Char.ofNat (48 + n) else Char.ofNat (55 + n)

/-- `%XX` percent escape of one byte, uppercase hex. -/
def pctOfByte (b : Nat) : List Char :=
  ['%', hexDigitChar (b / 16), hexDigitChar (b % 16)]

/-- Characters `encodeURIComponent` leaves unescaped. -/
def uriUnreserved (c : Char) : Bool :=
  c.isAlphanum || c == '-' || c == '_' || c == '.' || c == '!' || c == '~' ||
    c == '*' || c == Char.ofNat 39 || c == '(' || c == ')'

/-- JS `encodeURIComponent`. -/
def encodeURIComponent (s : String) : String :=
  ⟨s.data.flatMap (fun c =>
    if uriUnreserved c then [c] else (utf8EncodeChar c).flatMap pctOfByte)⟩

/-- Percent-decoding to bytes (invalid escapes stay literal), as in the
WHATWG urlencoded format. -/
def pctDecode : List Char → List Nat
  | [] => []
  | '%' :: a :: b :: rest =>
    match hexVal a, hexVal b with
    | some x, some y => (16 * x + y) :: pctDecode rest
    | _, _ => utf8EncodeChar '%' ++ pctDecode (a :: b :: rest)
  | c :: rest => utf8EncodeChar c ++ pctDecode rest

/-- One urlencoded token: `+` means space, then percent-decode, then UTF-8. -/
def formDecode (l : List Char) : String :=
  utf8Decode (pctDecode (l.map (fun c => if c == '+' then ' ' else c)))

/-- Characters the urlencoded serialiser keeps verbatim. -/
def formSafe (c : Char) : Bool :=
  c.isAlphanum || c == '*' || c == '-' || c == '.' || c == '_'

/-- WHATWG urlencoded serialisation of one token (used by
`URLSearchParams.toString`). -/
def formEncode (s : String) : String :=
  ⟨s.data.flatMap (fun c =>
    if c == ' ' then ['+']
    else if formSafe c then [c]
    else (utf8EncodeChar c).flatMap pctOfByte)⟩

/-- Split a character list at every occurrence of `c`, keeping empty pieces. -/
def splitOnChar (c : Char) : List Char → List (List Char)
  | [] => [[]]
  | d :: rest =>
    let r := splitOnChar c rest
    if d == c then [] :: r
    else
      match r with
      | [] => [[d]]
      | h :: t => (d :: h) :: t

/-- Split at the first occurrence of `c`, if any. -/
def splitFirst (c : Char) : List Char → List Char × Option (List Char)
  | [] => ([], none)
  | d :: rest =>
    if d == c then ([], some rest)
    else
      let r := splitFirst c rest
      (d :: r.1, r.2)

/-- One `name=value` pair of a query string. -/
def parseQSPair (part : List Char) : String × String :=
  let p := splitFirst '=' part
  (formDecode p.1, formDecode (p.2.getD []))

/-- `new URLSearchParams(q)`: the parsed pair list of a raw query string. -/
def parseQS (s : String) : List (String × String) :=
  ((splitOnChar '&' s.data).filter (fun l => !l.isEmpty)).map parseQSPair

/-- `URLSearchParams.get`: value of the first pair with the given name. -/
def qsGet (ps : List (String × String)) (name : String) : Option String :=
  (ps.find? (fun p => p.1 == name)).map Prod.snd

/-- `URLSearchParams.delete`: drop every pair with the given name. -/
def qsDeleteAll (ps : List (String × String)) (name : String) : List (String × String) :=
  ps.filter (fun p => !(p.1 == name))

/-- `URLSearchParams.toString`. -/
def serializeQS (ps : List (String × String)) : String :=
  match ps.map (fun p => formEncode p.1 ++ "=" ++ formEncode p.2) with
  | [] => ""
  | x :: xs => xs.foldl (fun acc y => acc ++ "&" ++ y) x

/-- JS `Array.prototype.join`. -/
def joinSep (sep : String) : List String → String
  | [] => ""
  | x :: xs => xs.foldl (fun acc y => acc ++ sep ++ y) x

/-- `base.replace(/\/+$/, "")`: remove the trailing run of slashes. -/
def stripTrailingSlashes (s : String) : String :=
  ⟨(s.data.reverse.dropWhile (fun c => c == '/')).reverse⟩

/-- `buildUpstreamUrl` from the route handler. -/
def buildUpstreamUrl (base : String) (segs : List String) (search : String) : String :=
  let b := stripTrailingSlashes base
  let p := joinSep "/" (segs.map encodeURIComponent)
  b ++ "/" ++ p ++ (if search = "" then "" else "?" ++ search)

/-- `Headers.set`: keys are normalised to lowercase, an existing entry is
replaced in place. -/
def headersSet : List (String × String) → String → String → List (String × String)
  | [], n, v => [(lcStr n, v)]
  | p :: rest, n, v =>
    if p.1 == lcStr n then (lcStr n, v) :: rest else p :: headersSet rest n v

/-- `Headers.get` over a list whose keys are already lowercase; callers pass
lowercase names, matching the Web API normalisation. -/
def headersGet : List (String × String) → String → Option String
  | [], _ => none
  | p :: rest, n => if p.1 == n then some p.2 else headersGet rest n

def headersHas (h : List (String × String)) (n : String) : Bool :=
  (headersGet h n).isSome

/-- `Headers.get` over a list whose keys may have arbitrary case (the inbound
request headers); the name argument is lowercase. -/
def headersGetCI : List (String × String) → String → Option String
  | [], _ => none
  | p :: rest, n => if lcStr p.1 == n then some p.2 else headersGetCI rest n

/-- The `allow` set of `pickHeaders`. -/
def allowNames : List String :=
  ["authorization", "content-type", "accept", "cookie", "x-requested-with",
   "x-api-key", "user-agent", "accept-language", "origin", "referer"]

/-- `pickHeaders`: copy the allow-listed inbound headers, then default the
`accept` header if none survived. -/
def pickHeaders (hs : List (String × String)) : List (String × String) :=
  let h := hs.foldl
    (fun acc p => if strMem allowNames (lcStr p.1) then headersSet acc p.1 p.2 else acc) []
  if headersHas h "accept" then h else headersSet h "accept" "application/json, */*;q=0.1"

/-- The header names the handler strips from the mirrored upstream headers. -/
def stripNames : List String :=
  ["connection", "transfer-encoding", "content-length", "content-encoding"]

/-- The `upstream.headers.forEach` copy loop of the handler. -/
def mirrorHeaders (hs : List (String × String)) : List (String × String) :=
  hs.foldl
    (fun acc p => if strMem stripNames (lcStr p.1) then acc else headersSet acc p.1 p.2) []

/-- The content-type defaulting step of the handler (lines 250-258). -/
def ensureContentType (h : List (String × String)) (textPeek : String) : List (String × String) :=
  if headersHas h "content-type" then h
  else
    headersSet h "content-type"
      (if jsStartsWith (jsTrim textPeek) "\x7b" || jsStartsWith (jsTrim textPeek) "[" then
        "application/json; charset=utf-8"
      else "text/plain; charset=utf-8")

/-- JSON values, as produced by `JSON.parse` and consumed by `Response.json`. -/
inductive Json where
  | null : Json
  | bool : Bool → Json
  | num : Int → Json
  | str : String → Json
  | arr : List Json → Json
  | obj : List (String × Json) → Json
deriving Repr

/-- Insert-or-replace of one field, keeping the original position — the JS
object-literal rule for duplicate keys. -/
def setKey : List (String × Json) → String → Json → List (String × Json)
  | [], k, v => [(k, v)]
  | p :: rest, k, v => if p.1 == k then (k, v) :: rest else p :: setKey rest k v

def enumFields : Nat → List Json → List (String × Json)
  | _, [] => []
  | i, x :: xs => (Nat.repr i, x) :: enumFields (i + 1) xs

/-- The own enumerable entries contributed by `...payload` in an object
literal: objects spread their fields, arrays and strings their indices,
primitives nothing. -/
def spreadFields : Json → List (String × Json)
  | Json.obj fs => fs
  | Json.arr xs => enumFields 0 xs
  | Json.str s => enumFields 0 (s.data.map (fun c => Json.str ⟨[c]⟩))
  | _ => []

/-- `\x7b base..., ...extra \x7d`: a JS object literal with a spread tail. -/
def jsObjectLit (base extra : List (String × Json)) : Json :=
  Json.obj (extra.foldl (fun acc p => setKey acc p.1 p.2) base)

def jsonHasKey : Json → String → Bool
  | Json.obj fs, k => fs.any (fun p => p.1 == k)
  | _, _ => false

/-- Whitespace skipped between JSON tokens. -/
def skipWs (l : List Char) : List Char :=
  l.dropWhile (fun c => c == ' ' || c == '\t' || c == '\n' || c == '\r')

/-- JSON string body after the opening quote. Fuel is the input length. -/
def parseStrBody : Nat → List Char → List Char → Option (String × List Char)
  | 0, _, _ => none
  | _ + 1, [], _ => none
  | fuel + 1, c :: rest, acc =>
    if c == '"' then some (⟨acc.reverse⟩, rest)
    else if c == '\\' then
      match rest with
      | [] => none
      | e :: r2 =>
        if e == '"' then parseStrBody fuel r2 ('"' :: acc)
        else if e == '\\' then parseStrBody fuel r2 ('\\' :: acc)
        else if e == '/' then parseStrBody fuel r2 ('/' :: acc)
        else if e == 'n' then parseStrBody fuel r2 ('\n' :: acc)
        else if e == 't' then parseStrBody fuel r2 ('\t' :: acc)
        else if e == 'r' then parseStrBody fuel r2 ('\r' :: acc)
        else if e == 'b' then parseStrBody fuel r2 (Char.ofNat 8 :: acc)
        else if e == 'f' then parseStrBody fuel r2 (Char.ofNat 12 :: acc)
        else if e == 'u' then
          match r2 with
          | h1 :: h2 :: h3 :: h4 :: r3 =>
            match hexVal h1, hexVal h2, hexVal h3, hexVal h4 with
            | some a, some b, some c2, some d =>
              parseStrBody fuel r3 (Char.ofNat (a * 4096 + b * 256 + c2 * 16 + d) :: acc)
            | _, _, _, _ => none
          | _ => none
        else none
    else parseStrBody fuel rest (c :: acc)

/-- Unsigned decimal literal. -/
def parseNatChars (l : List Char) : Option (Nat × List Char) :=
  let digs := l.takeWhile Char.isDigit
  if digs.isEmpty then none
  else some (digs.foldl (fun acc c => acc * 10 + (c.toNat - 48)) 0, l.drop digs.length)

/-- Mode of the fueled JSON reader: a value, the tail of an array, or the
tail of an object. -/
inductive PMode where
  | val : PMode
  | arrTail : List Json → PMode
  | objTail : List (String × Json) → PMode

/-- Fueled recursive-descent JSON reader (integers only, no floats). It is
used to instantiate the `JSON.parse` parameter of the handler model at
concrete inputs. -/
def parseJsonStep : Nat → PMode → List Char → Option (Json × List Char)
  | 0, _, _ => none
  | fuel + 1, PMode.val, input =>
    match skipWs input with
    | 'n' :: 'u' :: 'l' :: 'l' :: rest => some (Json.null, rest)
    | 't' :: 'r' :: 'u' :: 'e' :: rest => some (Json.bool true, rest)
    | 'f' :: 'a' :: 'l' :: 's' :: 'e' :: rest => some (Json.bool false, rest)
    | '"' :: rest => (parseStrBody rest.length rest []).map (fun p => (Json.str p.1, p.2))
    | '[' :: rest =>
      (match skipWs rest with
       | ']' :: r2 => some (Json.arr [], r2)
       | _ =>
         (parseJsonStep fuel PMode.val rest).bind (fun p =>
           parseJsonStep fuel (PMode.arrTail [p.1]) p.2))
    | '\x7b' :: rest =>
      (match skipWs rest with
       | '\x7d' :: r2 => some (Json.obj [], r2)
       | _ => parseJsonStep fuel (PMode.objTail []) rest)
    | '-' :: rest => (parseNatChars rest).map (fun p => (Json.num (-(p.1 : Int)), p.2))
    | c :: rest =>
      if c.isDigit then (parseNatChars (c :: rest)).map (fun p => (Json.num (p.1 : Int), p.2))
      else none
    | [] => none
  | fuel + 1, PMode.arrTail acc, input =>
    match skipWs input with
    | ',' :: rest =>
      (parseJsonStep fuel PMode.val rest).bind (fun p =>
        parseJsonStep fuel (PMode.arrTail (acc ++ [p.1])) p.2)
    | ']' :: rest => some (Json.arr acc, rest)
    | _ => none
  | fuel + 1, PMode.objTail acc, input =>
    match skipWs input with
    | '"' :: rest =>
      (parseStrBody rest.length rest []).bind (fun kp =>
        match skipWs kp.2 with
        | ':' :: r2 =>
          (parseJsonStep fuel PMode.val r2).bind (fun vp =>
            match skipWs vp.2 with
            | ',' :: r3 => parseJsonStep fuel (PMode.objTail (setKey acc kp.1 vp.1)) r3
            | '\x7d' :: r3 => some (Json.obj (setKey acc kp.1 vp.1), r3)
            | _ => none)
        | _ => none)
    | _ => none

/-- Concrete `JSON.parse` model built from the fueled reader. -/
def jsonParseFn (s : String) : Option Json :=
  match parseJsonStep (4 * s.data.length + 16) PMode.val s.data with
  | some (j, rest) => if (skipWs rest).isEmpty then some j else none
  | none => none

/-- An inbound request as the handler sees it: method, raw query string
(without the leading question mark), the wildcard path segments
(`ctx.params.path`), the header list, and the raw body bytes. -/
structure InboundRequest where
  method : String
  search : String
  pathSegs : List String
  headers : List (String × String)
  body : List Nat
deriving Repr, DecidableEq

/-- An upstream `Response` after `arrayBuffer()`: status line, the header
list as `Headers` iterates it (lowercase names), and the decoded body
bytes. -/
structure UpstreamResponse where
  status : Nat
  statusText : String
  headers : List (String × String)
  body : List Nat
deriving Repr, DecidableEq

/-- A thrown JS exception, as far as the handler inspects it. -/
structure JsException where
  name : String
  message : String
deriving Repr, DecidableEq

/-- Outcome of one `fetch` attempt: a response, or a thrown exception
(a timeout surfaces as an exception whose `name` is `AbortError`). -/
inductive FetchOutcome where
  | success : UpstreamResponse → FetchOutcome
  | failure : JsException → FetchOutcome
deriving Repr, DecidableEq

/-- `e?.message || String(e)` for an `Error` value. -/
def errText (e : JsException) : String :=
  if e.message = "" then e.name else e.message

def isAbortFailure : FetchOutcome → Bool
  | FetchOutcome.failure e => e.name == "AbortError"
  | FetchOutcome.success _ => false

/-- The extended deadline of the single retry:
`Math.min(timeoutMs + 30_000, 120_000)`. -/
def retryDeadline (t : Nat) : Nat :=
  min (t + 30000) 120000

/-- The attempt loop of the handler (lines 202-213): first attempt with
deadline `t`; on an `AbortError` exactly one retry with the extended
deadline; any other exception, or a failed retry, propagates. The first
component records the deadline of each attempt actually made. -/
def runAttempts (f1 f2 : FetchOutcome) (t : Nat) :
    List Nat × Except JsException UpstreamResponse :=
  match f1 with
  | FetchOutcome.success r => ([t], Except.ok r)
  | FetchOutcome.failure e =>
    if e.name == "AbortError" then
      match f2 with
      | FetchOutcome.success r => ([t, retryDeadline t], Except.ok r)
      | FetchOutcome.failure e2 => ([t, retryDeadline t], Except.error e2)
    else ([t], Except.error e)

/-- Deadline selection (line 192): multipart uploads 90s, other writes 45s,
reads 30s. -/
def timeoutMs (req : InboundRequest) : Nat :=
  let method := ucStr req.method
  let isWrite := !(strMem ["GET", "HEAD", "OPTIONS"] method)
  let ct := (headersGetCI req.headers "content-type").getD ""
  if jsStartsWith ct "multipart/form-data" then 90000
  else if isWrite then 45000
  else 30000

/-- The outbound `RequestInit` (lines 194-200): uppercased method, filtered
headers, and the body only for methods other than GET and HEAD. -/
structure OutboundInit where
  method : String
  headers : List (String × String)
  body : Option (List Nat)
deriving Repr

def outboundInit (req : InboundRequest) : OutboundInit :=
  let method := ucStr req.method
  { method := method
    headers := pickHeaders req.headers
    body := if strMem ["GET", "HEAD"] method then none else some req.body }

/-- Body of a gateway response: raw bytes (`new Response(buf, ...)`) or a
JSON document (`Response.json(...)`). -/
inductive RespBody where
  | bytes : List Nat → RespBody
  | json : Json → RespBody
deriving Repr

structure GatewayResponse where
  status : Nat
  statusText : String
  headers : List (String × String)
  body : RespBody
deriving Repr

def respBodyIsJson : RespBody → Bool
  | RespBody.json _ => true
  | RespBody.bytes _ => false

def respBodyHasKey : RespBody → String → Bool
  | RespBody.json j, k => jsonHasKey j k
  | RespBody.bytes _, _ => false

/-- `Response.json(j, \x7b status, headers \x7d)`: statusText defaults to the
empty string and a `content-type` of `application/json` is added when the
given headers lack one. -/
def responseJson (j : Json) (status : Nat) (hs : List (String × String)) : GatewayResponse :=
  { status := status
    statusText := ""
    headers := if headersHas hs "content-type" then hs
               else headersSet hs "content-type" "application/json"
    body := RespBody.json j }

/-- The `__dbg`-stripped query pairs the handler forwards upstream. -/
def forwardedParams (req : InboundRequest) : List (String × String) :=
  qsDeleteAll (parseQS req.search) "__dbg"

def forwardedSearch (req : InboundRequest) : String :=
  serializeQS (forwardedParams req)

/-- The resolved upstream target of a request (line 182). -/
def handlerTarget (apiBase : String) (req : InboundRequest) : String :=
  buildUpstreamUrl apiBase req.pathSegs (forwardedSearch req)

/-- The `proxy` metadata object attached to coerced error bodies. -/
def proxyMeta (target method : String) (status : Nat) (statusText : String) : Json :=
  Json.obj [("target", Json.str target), ("method", Json.str method),
            ("status", Json.num status), ("statusText", Json.str statusText)]

/-- Error-body coercion (lines 262-269): JSON content-types are parsed (a
parse failure yields the unreadable-body detail), anything else is wrapped
as `detail` with the statusText and a fixed message as fallbacks. -/
def coercePayload (parse : String → Option Json)
    (upstreamType bodyText statusText : String) : Json :=
  if jsIncludes upstreamType "application/json" then
    match parse bodyText with
    | some j => j
    | none => Json.obj [("detail", Json.str "Upstream returned an unreadable body")]
  else
    Json.obj [("detail", Json.str
      (if bodyText ≠ "" then bodyText
       else if statusText ≠ "" then statusText
       else "Upstream error"))]

/-- The debug envelope (lines 220-235). -/
def debugResponse (target method : String) (u : UpstreamResponse) : GatewayResponse :=
  let textPeek := utf8Decode (u.body.take 200)
  let upstreamType := (headersGetCI u.headers "content-type").getD ""
  responseJson
    (Json.obj [("proxy", Json.obj
      [("target", Json.str target), ("method", Json.str method),
       ("status", Json.num u.status), ("statusText", Json.str u.statusText),
       ("contentType", Json.str upstreamType),
       ("headers", Json.obj (u.headers.map (fun p => (p.1, Json.str p.2)))),
       ("bodyPreview", Json.str textPeek)])])
    u.status [("x-proxy-target", target)]

/-- The non-debug tail of the handler (lines 237-276): mirror the upstream
headers minus the stripped ones, tag the target, default the content-type,
then either coerce a non-2xx body to JSON or pass the bytes through. -/
def normalModeResponse (parse : String → Option Json)
    (target method : String) (u : UpstreamResponse) : GatewayResponse :=
  let textPeek := utf8Decode (u.body.take 200)
  let upstreamType := (headersGetCI u.headers "content-type").getD ""
  let headers := ensureContentType (headersSet (mirrorHeaders u.headers) "x-proxy-target" target) textPeek
  if 200 ≤ u.status ∧ u.status ≤ 299 then
    { status := u.status, statusText := u.statusText, headers := headers,
      body := RespBody.bytes u.body }
  else
    responseJson
      (jsObjectLit [("proxy", proxyMeta target method u.status u.statusText)]
        (spreadFields (coercePayload parse upstreamType (utf8Decode u.body) u.statusText)))
      u.status headers

/-- The route handler (lines 175-283). `apiBase` is the `API_BASE_URL`
environment value, `parse` the `JSON.parse` oracle, `f1`/`f2` the outcomes
of the first and (if reached) second upstream attempt. -/
def handler (apiBase : String) (parse : String → Option Json)
    (req : InboundRequest) (f1 f2 : FetchOutcome) : GatewayResponse :=
  if apiBase = "" then
    { status := 500, statusText := "", headers := [],
      body := RespBody.bytes (utf8Encode "API_BASE_URL env not set") }
  else
    let target := handlerTarget apiBase req
    let dbg := qsGet (parseQS req.search) "__dbg" == some "1"
    let method := ucStr req.method
    match (runAttempts f1 f2 (timeoutMs req)).2 with
    | Except.error e =>
      responseJson
        (Json.obj [("detail", Json.str ("Proxy error to " ++ target ++ ": " ++ errText e))])
        502 [("x-proxy-target", target)]
    | Except.ok upstream =>
      if dbg then debugResponse target method upstream
      else normalModeResponse parse target method upstream

/-- Validity of the statuses an oracle outcome can carry: a resolved `fetch`
response has an HTTP status in 100..599. -/
def statusValid (f : FetchOutcome) : Prop :=
  ∀ r, f = FetchOutcome.success r → 100 ≤ r.status ∧ r.status ≤ 599

/-- Modelled from the spec: strip trailing slashes from the base URL,
written as a right fold that erases a final run of slashes. -/
def specStripChars (l : List Char) : List Char :=
  l.foldr (fun c acc => if acc.isEmpty && c == '/' then [] else c :: acc) []

/-- Modelled from the spec: join the encoded segments with a slash. -/
def specJoin : List String → String
  | [] => ""
  | [x] => x
  | x :: y :: xs => x ++ "/" ++ specJoin (y :: xs)

/-- Modelled from the spec: `base + "/" + percentEncode(p).join("/") +
("?" + q if q non-empty else "")`. -/
def specUpstreamUrl (base : String) (segs : List String) (q : String) : String :=
  ⟨specStripChars base.data⟩ ++ "/" ++ specJoin (segs.map encodeURIComponent) ++
    (if q ≠ "" then "?" ++ q else "")

/-- A plain GET request with an empty query, used as a concrete test input. -/
def wreq : InboundRequest :=
  { method := "GET", search := "", pathSegs := ["x"], headers := [], body := [] }

/-- A POST request with a two-byte body, used as a concrete test input. -/
def wreqPost : InboundRequest :=
  { method := "POST", search := "", pathSegs := ["x"], headers := [], body := [1, 2] }

/-- A request whose query carries `__dbg=1`, used as a concrete test input. -/
def wreqDbg : InboundRequest :=
  { method := "GET", search := "__dbg=1&a=b", pathSegs := ["x"], headers := [], body := [] }

/-- A request whose query carries `__dbg=true`, used as a concrete test input. -/
def wreqDbgTrue : InboundRequest :=
  { method := "GET", search := "__dbg=true&a=b", pathSegs := ["x"], headers := [], body := [] }

/-- A 404 upstream response labelled JSON whose parsed body has no `detail`
field. -/
def upJson404 : UpstreamResponse :=
  { status := 404, statusText := "Not Found",
    headers := [("content-type", "application/json")],
    body := utf8Encode "\x7b\"ok\":false\x7d" }

/-- A 500 upstream response labelled text/plain. -/
def upText500 : UpstreamResponse :=
  { status := 500, statusText := "Internal Server Error",
    headers := [("content-type", "text/plain")],
    body := utf8Encode "boom" }

/-- A 200 upstream response without a content-type whose body starts with
200 blanks followed by a JSON object. -/
def upPad200 : UpstreamResponse :=
  { status := 200, statusText := "OK", headers := [],
    body := List.replicate 200 32 ++ utf8Encode "\x7b\x7d" }

/-- A 200 upstream response without a content-type and a plain-text body. -/
def upHello200 : UpstreamResponse :=
  { status := 200, statusText := "OK", headers := [],
    body := utf8Encode "hello" }

/-- A timeout exception as `AbortController` raises it. -/
def abortExc : JsException :=
  { name := "AbortError", message := "This operation was aborted" }

/-- A non-timeout network exception as `fetch` raises it. -/
def netExc : JsException :=
  { name := "TypeError", message := "fetch failed" }

theorem strMem_iff (l : List String) (x : String) : strMem l x = true ↔ x ∈ l := by
  induction l with
  | nil => simp [strMem]
  | cons s rest ih =>
    constructor
    · intro h
      have h2 : (s == x) = true ∨ strMem rest x = true := by
        simpa [strMem, Bool.or_eq_true] using h
      rcases h2 with h3 | h3
      · exact (beq_iff_eq.mp h3) ▸ List.mem_cons_self _ _
      · exact List.mem_cons_of_mem _ (ih.mp h3)
    · intro h
      rcases List.mem_cons.mp h with h3 | h3
      · show ((s == x) || strMem rest x) = true
        rw [h3, beq_self_eq_true, Bool.true_or]
      · show ((s == x) || strMem rest x) = true
        rw [ih.mpr h3, Bool.or_true]

theorem mem_headersSet (h : List (String × String)) (n v k w : String)
    (hm : (k, w) ∈ headersSet h n v) : (k, w) ∈ h ∨ k = lcStr n := by
  induction h with
  | nil =>
    simp only [headersSet, List.mem_singleton, Prod.mk.injEq] at hm
    exact Or.inr hm.1
  | cons p rest ih =>
    simp only [headersSet] at hm
    by_cases hb : (p.1 == lcStr n) = true
    · rw [if_pos hb] at hm
      rcases List.mem_cons.mp hm with h1 | h2
      · exact Or.inr (congrArg Prod.fst h1)
      · exact Or.inl (List.mem_cons_of_mem _ h2)
    · rw [if_neg hb] at hm
      rcases List.mem_cons.mp hm with h1 | h2
      · exact Or.inl (h1 ▸ List.mem_cons_self _ _)
      · rcases ih h2 with h3 | h3
        · exact Or.inl (List.mem_cons_of_mem _ h3)
        · exact Or.inr h3

theorem headersGet_set_self (h : List (String × String)) (n v : String) :
    headersGet (headersSet h n v) (lcStr n) = some v := by
  induction h with
  | nil => simp [headersSet, headersGet]
  | cons p rest ih =>
    simp only [headersSet]
    by_cases hb : (p.1 == lcStr n) = true
    · rw [if_pos hb]
      simp [headersGet]
    · rw [if_neg hb]
      have hb2 : (p.1 == lcStr n) = false := by
        cases hx : (p.1 == lcStr n) with
        | true => exact absurd hx hb
        | false => rfl
      simp only [headersGet, hb2, Bool.false_eq_true, if_false]
      exact ih

theorem headersGet_set_other (h : List (String × String)) (n v m : String)
    (hne : lcStr n ≠ m) : headersGet (headersSet h n v) m = headersGet h m := by
  have hb0 : (lcStr n == m) = false := beq_eq_false_iff_ne.mpr hne
  induction h with
  | nil => simp [headersSet, headersGet, hb0]
  | cons p rest ih =>
    simp only [headersSet]
    by_cases hb : (p.1 == lcStr n) = true
    · rw [if_pos hb]
      have hp : p.1 = lcStr n := beq_iff_eq.mp hb
      simp only [headersGet, hb0, hp, Bool.false_eq_true, if_false]
    · rw [if_neg hb]
      simp only [headersGet]
      rw [ih]

theorem pick_fold_mem (hs : List (String × String)) :
    ∀ acc, (∀ k w, (k, w) ∈ acc → k ∈ allowNames) →
    ∀ k w,
      (k, w) ∈ hs.foldl
        (fun acc p => if strMem allowNames (lcStr p.1) then headersSet acc p.1 p.2 else acc) acc →
      k ∈ allowNames := by
  induction hs with
  | nil => intro acc hacc k w hm; exact hacc k w hm
  | cons p rest ih =>
    intro acc hacc k w hm
    simp only [List.foldl_cons] at hm
    by_cases hb : strMem allowNames (lcStr p.1) = true
    · rw [if_pos hb] at hm
      refine ih _ ?_ k w hm
      intro k2 w2 hm2
      rcases mem_headersSet _ _ _ _ _ hm2 with h1 | h2
      · exact hacc _ _ h1
      · exact h2 ▸ (strMem_iff _ _).mp hb
    · rw [if_neg hb] at hm
      exact ih acc hacc k w hm

theorem pickHeaders_mem (hs : List (String × String)) (k w : String)
    (hm : (k, w) ∈ pickHeaders hs) : k ∈ allowNames := by
  simp only [pickHeaders] at hm
  split at hm
  · exact pick_fold_mem hs [] (by simp) k w hm
  · rcases mem_headersSet _ _ _ _ _ hm with h1 | h2
    · exact pick_fold_mem hs [] (by simp) k w h1
    · rw [h2]; decide

theorem mirror_fold_get_none (hs : List (String × String)) (m : String)
    (hks : ∀ k w, (k, w) ∈ hs → lcStr k ≠ m) :
    ∀ acc, headersGet acc m = none →
      headersGet (hs.foldl
        (fun acc p => if strMem stripNames (lcStr p.1) then acc else headersSet acc p.1 p.2) acc)
        m = none := by
  induction hs with
  | nil => intro acc hacc; exact hacc
  | cons p rest ih =>
    intro acc hacc
    simp only [List.foldl_cons]
    have hrest : ∀ k w, (k, w) ∈ rest → lcStr k ≠ m := by
      intro k w hm; exact hks k w (List.mem_cons_of_mem _ hm)
    by_cases hb : strMem stripNames (lcStr p.1) = true
    · rw [if_pos hb]; exact ih hrest acc hacc
    · rw [if_neg hb]
      refine ih hrest _ ?_
      rw [headersGet_set_other _ _ _ _ (hks p.1 p.2 (List.mem_cons_self _ _))]
      exact hacc

theorem mirror_get_none (hs : List (String × String)) (m : String)
    (hks : ∀ k w, (k, w) ∈ hs → lcStr k ≠ m) :
    headersGet (mirrorHeaders hs) m = none :=
  mirror_fold_get_none hs m hks [] rfl

theorem runAttempts_ok (f1 f2 : FetchOutcome) (t : Nat) (u : UpstreamResponse)
    (h : (runAttempts f1 f2 t).2 = Except.ok u) :
    f1 = FetchOutcome.success u ∨ f2 = FetchOutcome.success u := by
  cases f1 with
  | success r => simp only [runAttempts] at h; exact Or.inl (by rw [Except.ok.injEq] at h; rw [h])
  | failure e =>
    simp only [runAttempts] at h
    cases hb : (e.name == "AbortError") with
    | false => rw [hb] at h; simp at h
    | true =>
      rw [hb] at h
      simp only [if_true] at h
      cases f2 with
      | success r => simp only at h; exact Or.inr (by rw [Except.ok.injEq] at h; rw [h])
      | failure e2 => simp at h

theorem dbg_not_in_forwarded (req : InboundRequest) (w : String) :
    ("__dbg", w) ∉ forwardedParams req := by
  intro hmem
  simp [forwardedParams, qsDeleteAll, List.mem_filter] at hmem

theorem handler_success_nodbg (apiBase : String) (parse : String → Option Json)
    (req : InboundRequest) (u : UpstreamResponse) (f2 : FetchOutcome)
    (hA : apiBase ≠ "") (hd : qsGet (parseQS req.search) "__dbg" ≠ some "1") :
    handler apiBase parse req (FetchOutcome.success u) f2 =
      normalModeResponse parse (handlerTarget apiBase req) (ucStr req.method) u := by
  have hb : (qsGet (parseQS req.search) "__dbg" == some "1") = false :=
    beq_eq_false_iff_ne.mpr hd
  simp [handler, runAttempts, hA, hb]

theorem timeoutMs_le (req : InboundRequest) : timeoutMs req ≤ 90000 := by
  simp only [timeoutMs]
  split
  · omega
  · split <;> omega

theorem foldl_sep_append (sep : String) (xs : List String) :
    ∀ a b : String,
      xs.foldl (fun acc y => acc ++ sep ++ y) (a ++ b) =
        a ++ xs.foldl (fun acc y => acc ++ sep ++ y) b := by
  induction xs with
  | nil => intro a b; rfl
  | cons x t ih =>
    intro a b
    simp only [List.foldl_cons]
    have hassoc : a ++ b ++ sep ++ x = a ++ (b ++ sep ++ x) := by
      simp [String.append_assoc]
    rw [hassoc]
    exact ih a (b ++ sep ++ x)

theorem joinSep_eq_specJoin (xs : List String) : joinSep "/" xs = specJoin xs := by
  induction xs with
  | nil => rfl
  | cons x t ih =>
    cases t with
    | nil => rfl
    | cons y ts =>
      show (y :: ts).foldl (fun acc z => acc ++ "/" ++ z) x = specJoin (x :: y :: ts)
      simp only [List.foldl_cons]
      have h1 : x ++ "/" ++ y = (x ++ "/") ++ y := rfl
      rw [h1, foldl_sep_append]
      have h2 : joinSep "/" (y :: ts) = ts.foldl (fun acc z => acc ++ "/" ++ z) y := rfl
      rw [← h2, ih]
      simp only [specJoin]

theorem dropWhile_append_single (p : Char → Bool) (l : List Char) (c : Char) :
    (l ++ [c]).dropWhile p =
      if (l.dropWhile p).isEmpty then [c].dropWhile p else l.dropWhile p ++ [c] := by
  induction l with
  | nil => simp
  | cons d t ih =>
    cases hd : p d with
    | true => simp [List.dropWhile_cons, hd, ih]
    | false => simp [List.dropWhile_cons, hd]

theorem specStripChars_eq (l : List Char) :
    specStripChars l = (l.reverse.dropWhile (fun c => c == '/')).reverse := by
  induction l with
  | nil => rfl
  | cons c t ih =>
    have hstep : specStripChars (c :: t) =
        (if (specStripChars t).isEmpty && c == '/' then [] else c :: specStripChars t) := rfl
    rw [hstep, List.reverse_cons, dropWhile_append_single, ih]
    cases he : (t.reverse.dropWhile (fun c => c == '/')).isEmpty with
    | true =>
      have hnil : t.reverse.dropWhile (fun c => c == '/') = [] := by
        simpa [List.isEmpty_iff] using he
      rw [hnil]
      simp only [List.reverse_nil, List.isEmpty_nil, Bool.true_and, if_true]
      cases hc : (c == '/') with
      | true => simp [List.dropWhile_cons, hc]
      | false => simp [List.dropWhile_cons, hc]
    | false =>
      have hnil : t.reverse.dropWhile (fun c => c == '/') ≠ [] := by
        simpa [List.isEmpty_iff] using he
      have hre : ((t.reverse.dropWhile (fun c => c == '/')).reverse).isEmpty = false := by
        simp [List.isEmpty_iff, hnil]
      rw [hre]
      simp [he, List.reverse_append]

/-- C2: for every inbound path (sequence of segments) and query string q
(after removal of the reserved flag), the upstream URL equals the base with
trailing slashes stripped, then a slash, then the segments percent-encoded
independently and joined with slashes, then a question mark followed by the
query string exactly when it is non-empty. -/
theorem claim2_upstream_url_formula :
    (∀ base segs q, buildUpstreamUrl base segs q = specUpstreamUrl base segs q) ∧
    (∀ apiBase req, handlerTarget apiBase req =
      specUpstreamUrl apiBase req.pathSegs (forwardedSearch req)) := by
  have hmain : ∀ base segs q, buildUpstreamUrl base segs q = specUpstreamUrl base segs q := by
    intro base segs q
    simp only [buildUpstreamUrl, specUpstreamUrl, stripTrailingSlashes,
      joinSep_eq_specJoin, specStripChars_eq]
    by_cases hq : q = ""
    · simp [hq]
    · simp [hq]
  exact ⟨hmain, fun apiBase req => hmain _ _ _⟩

/-- C5: every header name of the outbound upstream request belongs to the
fixed allow-list; no inbound header outside the set is forwarded. -/
theorem claim5_outbound_headers_allowlisted (req : InboundRequest) (k w : String)
    (hm : (k, w) ∈ (outboundInit req).headers) : k ∈ allowNames :=
  pickHeaders_mem req.headers k w hm

/-- C5 witness: a concrete request with an allow-listed and a non-listed
header; the surviving header name is in the allow-list. -/
theorem claim5_witness :
    ("authorization", "tok") ∈ (outboundInit
      { method := "GET", search := "", pathSegs := [],
        headers := [("Authorization", "tok"), ("X-Evil", "1")], body := [] }).headers ∧
    "authorization" ∈ allowNames := by
  constructor
  · decide
  · exact claim5_outbound_headers_allowlisted
      { method := "GET", search := "", pathSegs := [],
        headers := [("Authorization", "tok"), ("X-Evil", "1")], body := [] }
      "authorization" "tok" (by decide)

/-- C7: GET and HEAD outbound requests carry no body; for every other
method the outbound body equals the inbound body byte for byte. -/
theorem claim7_body_passthrough (req : InboundRequest) :
    ((ucStr req.method = "GET" ∨ ucStr req.method = "HEAD") →
      (outboundInit req).body = none) ∧
    (¬(ucStr req.method = "GET" ∨ ucStr req.method = "HEAD") →
      (outboundInit req).body = some req.body) := by
  constructor
  · intro h
    have hb : strMem ["GET", "HEAD"] (ucStr req.method) = true := by
      apply (strMem_iff _ _).mpr
      rcases h with h | h <;> simp [h]
    simp [outboundInit, hb]
  · intro h
    have hb : strMem ["GET", "HEAD"] (ucStr req.method) = false := by
      cases hx : strMem ["GET", "HEAD"] (ucStr req.method) with
      | true =>
        exfalso
        have hmem := (strMem_iff _ _).mp hx
        simp only [List.mem_cons, List.mem_singleton, List.not_mem_nil, or_false] at hmem
        exact h hmem
      | false => rfl
    simp [outboundInit, hb]

/-- C7 witness: a lowercase-get request gets no body, a POST request
forwards its two body bytes unchanged. -/
theorem claim7_witness :
    (outboundInit { method := "get", search := "", pathSegs := [],
                    headers := [], body := [7] }).body = none ∧
    (outboundInit wreqPost).body = some [1, 2] := by
  constructor
  · exact (claim7_body_passthrough _).1 (Or.inl (by decide))
  · exact (claim7_body_passthrough wreqPost).2 (by decide)

/-- C3: a first-attempt timeout triggers exactly one retry with a strictly
longer deadline; the attempt count is two exactly on a first-attempt
timeout and never exceeds two; and a retry that also times out is handled
as a network failure (the proxy-error 502 response). -/
theorem claim3_timeout_retry_policy (apiBase : String) (parse : String → Option Json)
    (req : InboundRequest) (f1 f2 : FetchOutcome) :
    (runAttempts f1 f2 (timeoutMs req)).1.length ≤ 2 ∧
    ((runAttempts f1 f2 (timeoutMs req)).1.length = 2 ↔ isAbortFailure f1 = true) ∧
    (isAbortFailure f1 = true →
      (runAttempts f1 f2 (timeoutMs req)).1 =
        [timeoutMs req, retryDeadline (timeoutMs req)] ∧
      timeoutMs req < retryDeadline (timeoutMs req)) ∧
    (apiBase ≠ "" → isAbortFailure f1 = true →
      ∀ e2, f2 = FetchOutcome.failure e2 →
      handler apiBase parse req f1 f2 =
        responseJson
          (Json.obj [("detail",
            Json.str ("Proxy error to " ++ handlerTarget apiBase req ++ ": " ++ errText e2))])
          502 [("x-proxy-target", handlerTarget apiBase req)]) := by
  have hlt : timeoutMs req < retryDeadline (timeoutMs req) := by
    have hle := timeoutMs_le req
    simp only [retryDeadline]
    omega
  cases f1 with
  | success u =>
    refine ⟨by simp [runAttempts], ?_, ?_, ?_⟩
    · simp [runAttempts, isAbortFailure]
    · intro h; simp [isAbortFailure] at h
    · intro _ h; simp [isAbortFailure] at h
  | failure e =>
    by_cases hb : (e.name == "AbortError") = true
    · refine ⟨?_, ?_, ?_, ?_⟩
      · cases f2 <;> simp [runAttempts, hb]
      · cases f2 <;> simp [runAttempts, hb, isAbortFailure]
      · intro _
        exact ⟨by cases f2 <;> simp [runAttempts, hb], hlt⟩
      · intro hA _ e2 hf2
        subst hf2
        simp [handler, runAttempts, hb, hA]
    · have hb2 : (e.name == "AbortError") = false := by
        cases hx : (e.name == "AbortError") with
        | true => exact absurd hx hb
        | false => rfl
      refine ⟨?_, ?_, ?_, ?_⟩
      · simp [runAttempts, hb2]
      · simp [runAttempts, hb2, isAbortFailure]
      · intro h; simp [isAbortFailure, hb2] at h
      · intro _ h _ _; simp [isAbortFailure, hb2] at h

/-- C3 witness: both attempts of a GET time out; the deadlines are 30s then
60s, and the result is the proxy-error 502 response. -/
theorem claim3_witness :
    (runAttempts (FetchOutcome.failure abortExc) (FetchOutcome.failure abortExc)
      (timeoutMs wreq)).1 = [30000, 60000] ∧
    handler "http://a" jsonParseFn wreq
        (FetchOutcome.failure abortExc) (FetchOutcome.failure abortExc) =
      responseJson
        (Json.obj [("detail",
          Json.str ("Proxy error to " ++ handlerTarget "http://a" wreq ++ ": " ++ errText abortExc))])
        502 [("x-proxy-target", handlerTarget "http://a" wreq)] := by
  have h := claim3_timeout_retry_policy "http://a" jsonParseFn wreq
    (FetchOutcome.failure abortExc) (FetchOutcome.failure abortExc)
  constructor
  · exact ((h.2.2.1 (by decide)).1).trans (by decide)
  · exact h.2.2.2 (by decide) (by decide) abortExc rfl

/-- C4: a non-timeout network failure of the first attempt is not retried
and yields the 502 JSON proxy-error envelope; a failure of the retry (after
a first-attempt timeout) yields the same envelope. -/
theorem claim4_network_failure_502 (apiBase : String) (parse : String → Option Json)
    (req : InboundRequest) (f1 f2 : FetchOutcome) (e : JsException) (hA : apiBase ≠ "") :
    (f1 = FetchOutcome.failure e → e.name ≠ "AbortError" →
      (runAttempts f1 f2 (timeoutMs req)).1.length = 1 ∧
      handler apiBase parse req f1 f2 =
        responseJson
          (Json.obj [("detail",
            Json.str ("Proxy error to " ++ handlerTarget apiBase req ++ ": " ++ errText e))])
          502 [("x-proxy-target", handlerTarget apiBase req)]) ∧
    (isAbortFailure f1 = true → f2 = FetchOutcome.failure e →
      handler apiBase parse req f1 f2 =
        responseJson
          (Json.obj [("detail",
            Json.str ("Proxy error to " ++ handlerTarget apiBase req ++ ": " ++ errText e))])
          502 [("x-proxy-target", handlerTarget apiBase req)]) := by
  constructor
  · intro h1 h2
    subst h1
    have hb : (e.name == "AbortError") = false := beq_eq_false_iff_ne.mpr h2
    constructor
    · simp [runAttempts, hb]
    · simp [handler, runAttempts, hb, hA]
  · intro hab hf2
    subst hf2
    cases f1 with
    | success u => simp [isAbortFailure] at hab
    | failure e1 =>
      have hb : (e1.name == "AbortError") = true := by
        simpa [isAbortFailure] using hab
      simp [handler, runAttempts, hb, hA]

/-- C4 witness: a concrete TypeError on the first attempt produces the 502
proxy-error envelope with a single attempt. -/
theorem claim4_witness :
    (runAttempts (FetchOutcome.failure netExc) (FetchOutcome.success upJson404)
      (timeoutMs wreq)).1.length = 1 ∧
    handler "http://a" jsonParseFn wreq
        (FetchOutcome.failure netExc) (FetchOutcome.success upJson404) =
      responseJson
        (Json.obj [("detail",
          Json.str ("Proxy error to " ++ handlerTarget "http://a" wreq ++ ": " ++ errText netExc))])
        502 [("x-proxy-target", handlerTarget "http://a" wreq)] :=
  claim4_network_failure_502 "http://a" jsonParseFn wreq
    (FetchOutcome.failure netExc) (FetchOutcome.success upJson404) netExc
    (by decide) |>.1 rfl (by decide)

/-- C6: for every inbound request and every upstream outcome (success with
any status, timeout, network fault), the handler returns a well-formed HTTP
response (status within 100..599), and every fetch exception is converted
into the 502 proxy-error response rather than propagated. -/
theorem claim6_total_wellformed (apiBase : String) (parse : String → Option Json)
    (req : InboundRequest) (f1 f2 : FetchOutcome)
    (h1 : statusValid f1) (h2 : statusValid f2) :
    (100 ≤ (handler apiBase parse req f1 f2).status ∧
      (handler apiBase parse req f1 f2).status ≤ 599) ∧
    (∀ e, (runAttempts f1 f2 (timeoutMs req)).2 = Except.error e → apiBase ≠ "" →
      handler apiBase parse req f1 f2 =
        responseJson
          (Json.obj [("detail",
            Json.str ("Proxy error to " ++ handlerTarget apiBase req ++ ": " ++ errText e))])
          502 [("x-proxy-target", handlerTarget apiBase req)]) := by
  by_cases hA : apiBase = ""
  · constructor
    · simp [handler, hA]
    · intro e _ hA2; exact absurd hA hA2
  · cases hr : (runAttempts f1 f2 (timeoutMs req)).2 with
    | error e =>
      have hh : handler apiBase parse req f1 f2 =
          responseJson
            (Json.obj [("detail",
              Json.str ("Proxy error to " ++ handlerTarget apiBase req ++ ": " ++ errText e))])
            502 [("x-proxy-target", handlerTarget apiBase req)] := by
        simp [handler, hA, hr]
      constructor
      · rw [hh]; simp [responseJson]
      · intro e2 he2 _
        injection he2 with h3
        rw [← h3]
        exact hh
    | ok u =>
      have hu : 100 ≤ u.status ∧ u.status ≤ 599 := by
        rcases runAttempts_ok f1 f2 _ u hr with h | h
        · exact h1 u h
        · exact h2 u h
      constructor
      · have hs : (handler apiBase parse req f1 f2).status = u.status := by
          by_cases hd : (qsGet (parseQS req.search) "__dbg" == some "1") = true
          · simp [handler, hA, hr, hd, debugResponse, responseJson]
          · have hd2 : (qsGet (parseQS req.search) "__dbg" == some "1") = false := by
              cases hx : (qsGet (parseQS req.search) "__dbg" == some "1") with
              | true => exact absurd hx hd
              | false => rfl
            simp only [handler, hA, hr, hd2, Bool.false_eq_true, if_false, ite_false]
            simp only [normalModeResponse]
            split <;> simp [responseJson]
        rw [hs]; exact ⟨hu.1, hu.2⟩
      · intro e he _
        exact absurd he (by simp)

/-- C6 witness: a concrete request whose upstream outcome is a 404 response
yields a response with a status inside 100..599. -/
theorem claim6_witness :
    100 ≤ (handler "http://a" jsonParseFn wreq
      (FetchOutcome.success upJson404) (FetchOutcome.success upJson404)).status ∧
    (handler "http://a" jsonParseFn wreq
      (FetchOutcome.success upJson404) (FetchOutcome.success upJson404)).status ≤ 599 := by
  have h := claim6_total_wellformed "http://a" jsonParseFn wreq
    (FetchOutcome.success upJson404) (FetchOutcome.success upJson404)
    (by intro r hr; cases hr; decide) (by intro r hr; cases hr; decide)
  exact h.1

/-- C9: with `__dbg=1` in the query the handler answers with the upstream
status and the debug JSON envelope carrying target, method, status,
statusText, contentType, the full upstream header map and a 200-byte body
preview, while `__dbg` itself is absent from the forwarded query pairs. -/
theorem claim9_debug_envelope (apiBase : String) (parse : String → Option Json)
    (req : InboundRequest) (u : UpstreamResponse) (f1 f2 : FetchOutcome)
    (hA : apiBase ≠ "") (hd : qsGet (parseQS req.search) "__dbg" = some "1")
    (hu : (runAttempts f1 f2 (timeoutMs req)).2 = Except.ok u) :
    (handler apiBase parse req f1 f2).status = u.status ∧
    (handler apiBase parse req f1 f2).body = RespBody.json (Json.obj
      [("proxy", Json.obj
        [("target", Json.str (handlerTarget apiBase req)),
         ("method", Json.str (ucStr req.method)),
         ("status", Json.num u.status),
         ("statusText", Json.str u.statusText),
         ("contentType", Json.str ((headersGetCI u.headers "content-type").getD "")),
         ("headers", Json.obj (u.headers.map (fun p => (p.1, Json.str p.2)))),
         ("bodyPreview", Json.str (utf8Decode (u.body.take 200)))])]) ∧
    (∀ w, ("__dbg", w) ∉ forwardedParams req) := by
  have hb : (qsGet (parseQS req.search) "__dbg" == some "1") = true := by
    rw [hd]; rfl
  have hh : handler apiBase parse req f1 f2 =
      debugResponse (handlerTarget apiBase req) (ucStr req.method) u := by
    simp [handler, hA, hu, hb]
  refine ⟨?_, ?_, fun w => dbg_not_in_forwarded req w⟩
  · rw [hh]; rfl
  · rw [hh]; rfl

/-- C9 witness: a concrete `?__dbg=1&a=b` request against a 200 upstream
yields the debug envelope with the upstream status and drops `__dbg` from
the forwarded pairs. -/
theorem claim9_witness :
    (handler "http://a" jsonParseFn wreqDbg
      (FetchOutcome.success upHello200) (FetchOutcome.success upHello200)).status = 200 ∧
    (handler "http://a" jsonParseFn wreqDbg
      (FetchOutcome.success upHello200) (FetchOutcome.success upHello200)).body =
      RespBody.json (Json.obj
        [("proxy", Json.obj
          [("target", Json.str (handlerTarget "http://a" wreqDbg)),
           ("method", Json.str (ucStr wreqDbg.method)),
           ("status", Json.num upHello200.status),
           ("statusText", Json.str upHello200.statusText),
           ("contentType", Json.str ((headersGetCI upHello200.headers "content-type").getD "")),
           ("headers", Json.obj (upHello200.headers.map (fun p => (p.1, Json.str p.2)))),
           ("bodyPreview", Json.str (utf8Decode (upHello200.body.take 200)))])]) ∧
    (("__dbg", "1") ∉ forwardedParams wreqDbg) := by
  have h := claim9_debug_envelope "http://a" jsonParseFn wreqDbg upHello200
    (FetchOutcome.success upHello200) (FetchOutcome.success upHello200)
    (by decide) (by decide) rfl
  exact ⟨h.1, h.2.1, h.2.2 "1"⟩

/-- C10: any `__dbg` parameter is removed from the forwarded query pairs,
but the debug envelope is produced only for the exact value 1: for any
other value the handler performs the normal (non-debug) passthrough. -/
theorem claim10_dbg_value_discrimination (apiBase : String) (parse : String → Option Json)
    (req : InboundRequest) (f1 f2 : FetchOutcome) (v : String)
    (hv : qsGet (parseQS req.search) "__dbg" = some v) :
    (∀ w, ("__dbg", w) ∉ forwardedParams req) ∧
    (v ≠ "1" → apiBase ≠ "" →
      ∀ u, (runAttempts f1 f2 (timeoutMs req)).2 = Except.ok u →
      handler apiBase parse req f1 f2 =
        normalModeResponse parse (handlerTarget apiBase req) (ucStr req.method) u) := by
  refine ⟨fun w => dbg_not_in_forwarded req w, ?_⟩
  intro hne hA u hu
  have hb : (qsGet (parseQS req.search) "__dbg" == some "1") = false := by
    rw [hv]
    exact beq_eq_false_iff_ne.mpr (by simpa using hne)
  simp [handler, hA, hu, hb]

/-- C10 witness: a `?__dbg=true` request is answered by the normal
passthrough and `__dbg` is gone from the forwarded pairs. -/
theorem claim10_witness :
    (("__dbg", "true") ∉ forwardedParams wreqDbgTrue) ∧
    handler "http://a" jsonParseFn wreqDbgTrue
        (FetchOutcome.success upHello200) (FetchOutcome.success upHello200) =
      normalModeResponse jsonParseFn (handlerTarget "http://a" wreqDbgTrue)
        (ucStr wreqDbgTrue.method) upHello200 := by
  have h := claim10_dbg_value_discrimination "http://a" jsonParseFn wreqDbgTrue
    (FetchOutcome.success upHello200) (FetchOutcome.success upHello200) "true" (by decide)
  exact ⟨h.1 "true", h.2 (by decide) (by decide) upHello200 rfl⟩

/-- C1 counterexample: a 404 upstream labelled `application/json` whose
body parses to an object without a `detail` field yields a JSON response
body that has no `detail` key, contradicting the claim that every non-2xx
response body contains one. -/
theorem claim1_counterexample :
    (handler "http://api" jsonParseFn wreq
      (FetchOutcome.success upJson404) (FetchOutcome.success upJson404)).status = 404 ∧
    respBodyIsJson (handler "http://api" jsonParseFn wreq
      (FetchOutcome.success upJson404) (FetchOutcome.success upJson404)).body = true ∧
    respBodyHasKey (handler "http://api" jsonParseFn wreq
      (FetchOutcome.success upJson404) (FetchOutcome.success upJson404)).body "detail" = false ∧
    jsIncludes ((headersGetCI upJson404.headers "content-type").getD "") "application/json" = true ∧
    (jsonParseFn (utf8Decode upJson404.body)).isSome = true ∧
    jsonHasKey ((jsonParseFn (utf8Decode upJson404.body)).getD Json.null) "ok" = true := by
  decide

/-- C1 (amended): for every non-2xx upstream response in normal mode the
returned body is always valid JSON; it carries a `detail` key whenever the
upstream content-type does not include application/json or the body fails
to parse; when it does parse, the parsed payload is spread after the
`proxy` field, so the result has a `detail` key only if the payload
contributes one. -/
theorem claim1_amended (apiBase : String) (parse : String → Option Json)
    (req : InboundRequest) (u : UpstreamResponse) (f2 : FetchOutcome)
    (hA : apiBase ≠ "") (hd : qsGet (parseQS req.search) "__dbg" ≠ some "1")
    (hst : ¬(200 ≤ u.status ∧ u.status ≤ 299)) :
    ∃ j, (handler apiBase parse req (FetchOutcome.success u) f2).body = RespBody.json j ∧
      ((jsIncludes ((headersGetCI u.headers "content-type").getD "") "application/json" = false ∨
        parse (utf8Decode u.body) = none) → jsonHasKey j "detail" = true) ∧
      (∀ p, jsIncludes ((headersGetCI u.headers "content-type").getD "") "application/json" = true →
        parse (utf8Decode u.body) = some p →
        j = jsObjectLit
          [("proxy", proxyMeta (handlerTarget apiBase req) (ucStr req.method) u.status u.statusText)]
          (spreadFields p)) := by
  rw [handler_success_nodbg apiBase parse req u f2 hA hd]
  refine ⟨jsObjectLit
      [("proxy", proxyMeta (handlerTarget apiBase req) (ucStr req.method) u.status u.statusText)]
      (spreadFields (coercePayload parse ((headersGetCI u.headers "content-type").getD "")
        (utf8Decode u.body) u.statusText)), ?_, ?_, ?_⟩
  · simp only [normalModeResponse]
    rw [if_neg hst]
    rfl
  · intro hsyn
    have hobj : ∃ s, coercePayload parse ((headersGetCI u.headers "content-type").getD "")
        (utf8Decode u.body) u.statusText = Json.obj [("detail", Json.str s)] := by
      rcases hsyn with hinc | hp
      · exact ⟨(if utf8Decode u.body ≠ "" then utf8Decode u.body
          else if u.statusText ≠ "" then u.statusText else "Upstream error"),
          by simp only [coercePayload, hinc, Bool.false_eq_true, if_false]⟩
      · by_cases hinc2 : jsIncludes ((headersGetCI u.headers "content-type").getD "")
            "application/json" = true
        · exact ⟨"Upstream returned an unreadable body", by simp [coercePayload, hinc2, hp]⟩
        · have hinc3 : jsIncludes ((headersGetCI u.headers "content-type").getD "")
              "application/json" = false := by
            cases hx : jsIncludes ((headersGetCI u.headers "content-type").getD "")
                "application/json" with
            | true => exact absurd hx hinc2
            | false => rfl
          exact ⟨(if utf8Decode u.body ≠ "" then utf8Decode u.body
            else if u.statusText ≠ "" then u.statusText else "Upstream error"),
            by simp only [coercePayload, hinc3, Bool.false_eq_true, if_false]⟩
    rcases hobj with ⟨s, hs⟩
    rw [hs]
    have hpd : (("proxy" : String) == "detail") = false := by decide
    have hdd : (("detail" : String) == "detail") = true := by decide
    simp [jsObjectLit, spreadFields, setKey, jsonHasKey, hpd, hdd]
  · intro p hinc hp
    simp [coercePayload, hinc, hp]

/-- C1 (amended) witness: a 500 text/plain upstream body yields a JSON
response body with a `detail` key. -/
theorem claim1_amended_witness :
    ∃ j, (handler "http://api" jsonParseFn wreq
      (FetchOutcome.success upText500) (FetchOutcome.success upText500)).body =
        RespBody.json j ∧ jsonHasKey j "detail" = true := by
  obtain ⟨j, hj, hsyn, _⟩ := claim1_amended "http://api" jsonParseFn wreq upText500
    (FetchOutcome.success upText500) (by decide) (by decide) (by decide)
  exact ⟨j, hj, hsyn (Or.inl (by decide))⟩

set_option maxRecDepth 400000 in
/-- C8 counterexample: a 2xx upstream without a content-type whose body is
200 blanks followed by a JSON object is labelled text/plain although the
trimmed text of the whole body starts with a brace: the sniffing looks
only at the first 200 bytes, not at the body's trimmed text. -/
theorem claim8_counterexample :
    headersGet (handler "http://api" jsonParseFn wreq
      (FetchOutcome.success upPad200) (FetchOutcome.success upPad200)).headers "content-type" =
      some "text/plain; charset=utf-8" ∧
    jsStartsWith (jsTrim (utf8Decode upPad200.body)) "\x7b" = true ∧
    (200 ≤ upPad200.status ∧ upPad200.status ≤ 299) ∧
    headersGetCI upPad200.headers "content-type" = none := by
  decide

/-- C8 (amended): for every 2xx upstream response without a content-type
header, the assigned content-type is `application/json; charset=utf-8`
exactly when the trimmed text of the first 200 body bytes starts with a
brace or a bracket, and `text/plain; charset=utf-8` otherwise. -/
theorem claim8_amended (apiBase : String) (parse : String → Option Json)
    (req : InboundRequest) (u : UpstreamResponse) (f2 : FetchOutcome)
    (hA : apiBase ≠ "") (hd : qsGet (parseQS req.search) "__dbg" ≠ some "1")
    (hst : 200 ≤ u.status ∧ u.status ≤ 299)
    (hct : ∀ k w, (k, w) ∈ u.headers → lcStr k ≠ "content-type") :
    headersGet (handler apiBase parse req (FetchOutcome.success u) f2).headers "content-type" =
      some (if jsStartsWith (jsTrim (utf8Decode (u.body.take 200))) "\x7b" ||
              jsStartsWith (jsTrim (utf8Decode (u.body.take 200))) "[" then
            "application/json; charset=utf-8"
          else "text/plain; charset=utf-8") := by
  rw [handler_success_nodbg apiBase parse req u f2 hA hd]
  simp only [normalModeResponse]
  rw [if_pos hst]
  have h1 : headersGet (mirrorHeaders u.headers) "content-type" = none :=
    mirror_get_none u.headers "content-type" hct
  have h2 : headersGet (headersSet (mirrorHeaders u.headers) "x-proxy-target"
      (handlerTarget apiBase req)) "content-type" = none := by
    rw [headersGet_set_other (mirrorHeaders u.headers) "x-proxy-target"
      (handlerTarget apiBase req) "content-type" (by decide)]
    exact h1
  simp only [ensureContentType, headersHas, h2, Option.isSome_none, Bool.false_eq_true, if_false]
  have h3 := headersGet_set_self (headersSet (mirrorHeaders u.headers) "x-proxy-target"
      (handlerTarget apiBase req)) "content-type"
      (if jsStartsWith (jsTrim (utf8Decode (u.body.take 200))) "\x7b" ||
          jsStartsWith (jsTrim (utf8Decode (u.body.take 200))) "[" then
        "application/json; charset=utf-8" else "text/plain; charset=utf-8")
  have h4 : lcStr "content-type" = "content-type" := by decide
  rw [h4] at h3
  exact h3

/-- C8 (amended) witness: a 200 upstream without a content-type and body
`hello` is labelled text/plain. -/
theorem claim8_witness :
    headersGet (handler "http://a" jsonParseFn wreq
      (FetchOutcome.success upHello200) (FetchOutcome.success upHello200)).headers
      "content-type" = some "text/plain; charset=utf-8" := by
  have h := claim8_amended "http://a" jsonParseFn wreq upHello200
    (FetchOutcome.success upHello200) (by decide) (by decide) (by decide)
    (by intro k w hm; simp [upHello200] at hm)
  exact h.trans (by decide)

end Gateway
